import Mathlib

/-!
Shallow embedding of the TetrisRS piece/grid simulation core (src/main.rs).

Modelling conventions:
* `Case` is the cell enumeration; the grid is the source's
  `[[Case; GRID_HEIGHT]; GRID_WIDTH]`, indexed `grid x y` with
  `x : Fin GRID_WIDTH`, `y : Fin GRID_HEIGHT`.
* Fallible operations (Rust panics: out-of-bounds indexing, `unwrap`,
  catalog lookup of an unknown case, `Vec::remove(0)` on an empty vector)
  are modelled with `Option`; `none` means the program faults.
* `i32` coordinate arithmetic is modelled as exact `Int` arithmetic (piece
  coordinates stay many orders of magnitude away from `i32` overflow), but
  the `i32 as usize` cast and the `usize` subtraction `y - 1`, whose
  wrapped values are reachable, are modelled bit-precisely with release
  (wrapping) semantics.  `i64` score accumulation is modelled with a
  bit-precise 64-bit wrap.  `u32` counters (`level`, `line_removed`) are
  modelled as `Nat`.
* Durations are modelled as abstract `Nat` ticks; the floating-point
  `drop_speed` formula is kept abstract as a `Nat → Nat` parameter
  (`Duration` comparisons in the source are total orders, so only the
  values matter, never the representation).
* Randomness (`rand::random::<Case>()`) is modelled by an oracle stream
  `draws : Nat → Nat` of raw `gen_range(1, 8)` results, consumed at the
  index `rng_index` carried in the state; `sample_case` is the source's
  `Distribution<Case>` implementation.
* Rendering, audio, fonts and the ggez context are outside the simulation
  core and are not modelled (their fields do not influence the core state
  transitions).
-/

inductive Case where
  | Empty
  | Red
  | Green
  | Blue
  | Yellow
  | DarkYellow
  | Purple
  | Cyan
deriving DecidableEq, Fintype

abbrev GRID_WIDTH : Nat := 10
abbrev GRID_HEIGHT : Nat := 20
abbrev NEXT_PIECES_COUNT : Nat := 3

abbrev Grid := Fin GRID_WIDTH → Fin GRID_HEIGHT → Case

/-- Modulus of the 64-bit `usize` type. -/
def USIZE_MOD : Nat := 18446744073709551616

/-- Wrapping `usize` subtraction (release-profile semantics of `a - b`). -/
def usize_wrap_sub (a b : Nat) : Nat := (a + USIZE_MOD - b) % USIZE_MOD

/-- The Rust cast `n as i32` for an unsigned 64-bit `n` (truncation to the
low 32 bits, reinterpreted as signed). -/
def cast_i32 (n : Nat) : Int :=
  if n % 4294967296 < 2147483648 then ((n % 4294967296 : Nat) : Int)
  else ((n % 4294967296 : Nat) : Int) - 4294967296

def I64_MOD : Int := 18446744073709551616
def I64_HALF : Int := 9223372036854775808

/-- Wrapping `i64` arithmetic: reduce an exact integer into `i64` range. -/
def wrap_i64 (v : Int) : Int := (v + I64_HALF) % I64_MOD - I64_HALF

/-- Checked read `grid[x][y]`; `none` models the index-out-of-bounds panic. -/
def grid_get (g : Grid) (x y : Nat) : Option Case :=
  if hx : x < GRID_WIDTH then
    if hy : y < GRID_HEIGHT then some (g ⟨x, hx⟩ ⟨y, hy⟩) else none
  else none

/-- Checked write `grid[x][y] = c`; `none` models the panic. -/
def grid_set (g : Grid) (x y : Nat) (c : Case) : Option Grid :=
  if hx : x < GRID_WIDTH then
    if hy : y < GRID_HEIGHT then
      some (fun x' y' => if x' = ⟨x, hx⟩ ∧ y' = ⟨y, hy⟩ then c else g x' y')
    else none
  else none

/-- Checked read at signed cell coordinates.  The source computes
`piece_x as usize + i_v_x` (sign-extending cast, wrapping `usize` add) and
indexes the array with the result, panicking when it is out of bounds.
For `i32` coordinates and template indexes below `2^62`, the wrapped
`usize` value lies inside the array exactly when the exact integer
`piece_x + i_v_x` lies in `[0, GRID_WIDTH)` (wrapped values are otherwise
at least `2^64 - 2^31`), and the two agree there; the checked signed read
is therefore bit-faithful to the release-profile behavior.  `none` models
the out-of-bounds panic. -/
def grid_get_i (g : Grid) (x y : Int) : Option Case :=
  if hx : 0 ≤ x ∧ x < (GRID_WIDTH : Int) then
    if hy : 0 ≤ y ∧ y < (GRID_HEIGHT : Int) then
      some (g ⟨x.toNat, by omega⟩ ⟨y.toNat, by omega⟩)
    else none
  else none

/-- Checked write at signed cell coordinates (see `grid_get_i`). -/
def grid_set_i (g : Grid) (x y : Int) (c : Case) : Option Grid :=
  if hx : 0 ≤ x ∧ x < (GRID_WIDTH : Int) then
    if hy : 0 ≤ y ∧ y < (GRID_HEIGHT : Int) then
      some (fun x' y' => if x' = ⟨x.toNat, by omega⟩ ∧ y' = ⟨y.toNat, by omega⟩ then c else g x' y')
    else none
  else none

/-- Total in-bounds read used only in specification statements: the cell at
signed coordinates, `Empty` off-grid (statements using it always constrain
the coordinates in range). -/
def grid_at (g : Grid) (x y : Int) : Case :=
  if hx : 0 ≤ x ∧ x < (GRID_WIDTH : Int) then
    if hy : 0 ≤ y ∧ y < (GRID_HEIGHT : Int) then
      g ⟨x.toNat, by omega⟩ ⟨y.toNat, by omega⟩
    else Case.Empty
  else Case.Empty

structure Offset where
  x : Int
  y : Int
deriving DecidableEq

def ROTATION_OFFSET_DEFAULT : List Offset :=
  [⟨1, 0⟩, ⟨-1, 1⟩, ⟨0, -1⟩, ⟨0, 0⟩]

def ROTATION_OFFSET_CYAN : List Offset :=
  [⟨2, -1⟩, ⟨-2, 2⟩, ⟨1, -2⟩, ⟨-1, 1⟩]

/-- Source `cases_rotation_offset`; `none` models the array-index panic for
an index outside `0..3` (unreachable from `rotate`, whose index is `% 4`). -/
def cases_rotation_offset (case : Case) (index : Nat) : Option Offset :=
  match case with
  | Case.DarkYellow => some ⟨0, 0⟩
  | Case.Cyan => ROTATION_OFFSET_CYAN[index]?
  | _ => ROTATION_OFFSET_DEFAULT[index]?

/-- Source `piece_cases`: the static shape catalog; `none` models the
`panic!("Unknow case type")` arm for `Case::Empty`. -/
def piece_cases (case : Case) : Option (List (List Case)) :=
  match case with
  | Case.Red => some [[Case.Red, Case.Red, Case.Empty],
                      [Case.Empty, Case.Red, Case.Red]]
  | Case.Green => some [[Case.Empty, Case.Green, Case.Green],
                        [Case.Green, Case.Green, Case.Empty]]
  | Case.Blue => some [[Case.Blue, Case.Empty, Case.Empty],
                       [Case.Blue, Case.Blue, Case.Blue]]
  | Case.Yellow => some [[Case.Empty, Case.Empty, Case.Yellow],
                         [Case.Yellow, Case.Yellow, Case.Yellow]]
  | Case.DarkYellow => some [[Case.DarkYellow, Case.DarkYellow],
                             [Case.DarkYellow, Case.DarkYellow]]
  | Case.Purple => some [[Case.Empty, Case.Purple, Case.Empty],
                         [Case.Purple, Case.Purple, Case.Purple]]
  | Case.Cyan => some [[Case.Cyan, Case.Cyan, Case.Cyan, Case.Cyan]]
  | Case.Empty => none

structure Piece where
  case : Case
  x : Int
  y : Int
  last_move : Nat
  cases : List (List Case)
  index_rotation : Nat
deriving DecidableEq

/-- Source `create_piece`; the inner `match` on the shape models the
`cases[0]` index (never empty for the seven real kinds). -/
def create_piece (case : Case) : Option Piece :=
  match piece_cases case with
  | none => none
  | some cs =>
    match cs with
    | [] => none
    | r0 :: _ =>
      some { case := case, x := ((GRID_WIDTH - r0.length) / 2 : Nat), y := 0,
             last_move := 0, cases := cs, index_rotation := 0 }

/-- Inner cell loop of `check_collision` for one template row: `j` is the
running `i_v_x`; the source's grid column index `piece_x as usize + i_v_x`
is modelled by the checked signed read at `px + j` (see `grid_get_i`). -/
def collide_row (g : Grid) (iy : Int) (px : Int) : Nat → List Case → Option Bool
  | _, [] => some false
  | j, c :: rest =>
    if c ≠ Case.Empty then
      match grid_get_i g (px + j) iy with
      | none => none
      | some cell =>
        if cell ≠ Case.Empty then some true
        else collide_row g iy px (j + 1) rest
    else collide_row g iy px (j + 1) rest

/-- Row loop of `check_collision`: `i` is the running `i_v_y`; each row's
grid row index `piece_y as usize + i_v_y` is modelled by the signed index
`py + i` (see `grid_get_i`). -/
def collide_cells (g : Grid) (px : Int) (py : Int) : Nat → List (List Case) → Option Bool
  | _, [] => some false
  | i, row :: rest =>
    match collide_row g (py + i) px 0 row with
    | none => none
    | some true => some true
    | some false => collide_cells g px py (i + 1) rest

/-- Source `check_collision`.  The bottom-edge test uses
`height = cases.len()`; the `match` on `cases` models the `cases[0]`
access inside `piece.width()`. -/
def check_collision (g : Grid) (p : Piece) (dx dy : Int) : Option Bool :=
  let piece_x := p.x + dx
  let piece_y := p.y + dy
  if (GRID_HEIGHT : Int) < piece_y + p.cases.length then some true
  else
    match p.cases with
    | [] => none
    | r0 :: _ =>
      if piece_x < 0 ∨ (GRID_WIDTH : Int) < piece_x + r0.length then some true
      else collide_cells g piece_x piece_y 0 p.cases

/-- Read `cases[y][x]` of a shape; `none` models the index panic. -/
def get_cell (cases : List (List Case)) (y x : Nat) : Option Case :=
  match cases[y]? with
  | none => none
  | some row => row[x]?

/-- The shape rotation inside `MainState::rotate`: transpose the `cases`
matrix, reversing each produced row (clockwise 90 degrees). -/
def rotate_cases (cases : List (List Case)) : Option (List (List Case)) :=
  match cases with
  | [] => none
  | r0 :: _ =>
    (List.range r0.length).mapM (fun x =>
      ((List.range cases.length).mapM (fun y => get_cell cases y x)).map List.reverse)

/-- The piece produced by `rotate` before any wall-kick retry: rotated
shape, kick offset applied, `y` clamped to be nonnegative, rotation index
advanced modulo 4. -/
def rotated_piece (p : Piece) (tc : List (List Case)) (off : Offset) : Piece :=
  { p with cases := tc, x := p.x + off.x, y := max (p.y + off.y) 0,
           index_rotation := (p.index_rotation + 1) % 4 }

/-- First candidate of the kick sequence (the rotated piece itself). -/
def rot_cand1 (p : Piece) (tc : List (List Case)) (off : Offset) : Piece :=
  rotated_piece p tc off

/-- Second candidate: `x -= 1`. -/
def rot_cand2 (p : Piece) (tc : List (List Case)) (off : Offset) : Piece :=
  { rot_cand1 p tc off with x := (rot_cand1 p tc off).x - 1 }

/-- Third candidate: `x += 2` (net `x + 1` from the first candidate). -/
def rot_cand3 (p : Piece) (tc : List (List Case)) (off : Offset) : Piece :=
  { rot_cand2 p tc off with x := (rot_cand2 p tc off).x + 2 }

/-- Fourth candidate: `x -= 1, y -= 1` (net original kicked `x`, one row up). -/
def rot_cand4 (p : Piece) (tc : List (List Case)) (off : Offset) : Piece :=
  { rot_cand3 p tc off with x := (rot_cand3 p tc off).x - 1,
                            y := (rot_cand3 p tc off).y - 1 }

/-- Piece-level body of `MainState::rotate` (the part after the
`current_piece` presence test): build the rotated piece, then try the fixed
four-candidate kick sequence; if every candidate collides the old piece is
kept. -/
def rotate_piece (g : Grid) (p : Piece) : Option Piece :=
  match rotate_cases p.cases with
  | none => none
  | some tc =>
    match cases_rotation_offset p.case p.index_rotation with
    | none => none
    | some off =>
      match check_collision g (rot_cand1 p tc off) 0 0 with
      | none => none
      | some false => some (rot_cand1 p tc off)
      | some true =>
        match check_collision g (rot_cand2 p tc off) 0 0 with
        | none => none
        | some false => some (rot_cand2 p tc off)
        | some true =>
          match check_collision g (rot_cand3 p tc off) 0 0 with
          | none => none
          | some false => some (rot_cand3 p tc off)
          | some true =>
            match check_collision g (rot_cand4 p tc off) 0 0 with
            | none => none
            | some false => some (rot_cand4 p tc off)
            | some true => some p

/-- The game-session state (`MainState` without the rendering/audio
fields, which do not feed back into the simulation core). -/
structure MainState where
  grid : Grid
  current_piece : Option Piece
  current_piece_ghost_offset_y : Int
  next_pieces : List Piece
  move_speed : Nat
  timer_piece_generation : Nat
  score : Int
  level : Nat
  line_removed : Nat
  rng_index : Nat
deriving DecidableEq

/-- Source `MainState::rotate`. -/
def rotate (s : MainState) : Option MainState :=
  match s.current_piece with
  | none => some s
  | some p =>
    match rotate_piece s.grid p with
    | none => none
    | some p' => some ({ s with current_piece := some p' })

/-- The `Distribution<Case>` implementation: map a raw `gen_range(1, 8)`
draw to a colored case (the `_ => Empty` arm is dead for in-range draws). -/
def sample_case (n : Nat) : Case :=
  match n with
  | 1 => Case.Red
  | 2 => Case.Green
  | 3 => Case.Blue
  | 4 => Case.Yellow
  | 5 => Case.DarkYellow
  | 6 => Case.Purple
  | 7 => Case.Cyan
  | _ => Case.Empty

/-- Source `MainState::reset` (sound and score-text side effects omitted);
`ds` abstracts `drop_speed`, `draws` is the random oracle.  The ghost
offset is not reset by the source either. -/
def reset (draws ds : Nat → Nat) (s : MainState) : Option MainState :=
  match create_piece (sample_case (draws s.rng_index)),
        create_piece (sample_case (draws (s.rng_index + 1))),
        create_piece (sample_case (draws (s.rng_index + 2))) with
  | some p1, some p2, some p3 =>
    some { grid := fun _ _ => Case.Empty,
           current_piece := none,
           current_piece_ghost_offset_y := s.current_piece_ghost_offset_y,
           next_pieces := [p1, p2, p3],
           move_speed := ds 1,
           timer_piece_generation := 0,
           score := 0,
           level := 1,
           line_removed := 0,
           rng_index := s.rng_index + 3 }
  | _, _, _ => none

/-- Cell loop of `put_piece_in_grid` over one template row (signed
indexing as in `grid_set_i`). -/
def put_row (px iy : Int) : Grid → Nat → List Case → Option Grid
  | g, _, [] => some g
  | g, j, c :: rest =>
    if c ≠ Case.Empty then
      match grid_set_i g (px + j) iy c with
      | none => none
      | some g' => put_row px iy g' (j + 1) rest
    else put_row px iy g (j + 1) rest

/-- Row loop of `put_piece_in_grid`. -/
def put_cells (px py : Int) : Grid → Nat → List (List Case) → Option Grid
  | g, _, [] => some g
  | g, i, row :: rest =>
    match put_row px (py + i) g 0 row with
    | none => none
    | some g' => put_cells px py g' (i + 1) rest

/-- Source `MainState::put_piece_in_grid`, acting on the grid. -/
def put_piece_in_grid (g : Grid) (p : Piece) : Option Grid :=
  put_cells p.x p.y g 0 p.cases

/-- Column loop of `remove_complete_lines` for one row: the accumulated
`all_in_line &= grid[x][y] != Empty` (every cell is read; `&=` does not
short-circuit). -/
def row_full_go (g : Grid) (y : Nat) (acc : Bool) : List Nat → Option Bool
  | [] => some acc
  | x :: xs =>
    match grid_get g x y with
    | none => none
    | some c => row_full_go g y (acc && decide (c ≠ Case.Empty)) xs

/-- Whether row `y` is completely non-empty. -/
def row_full (g : Grid) (y : Nat) : Option Bool :=
  row_full_go g y true (List.range GRID_WIDTH)

/-- Copy row `ytm` into row `ytm + 1`, cell by cell (inner `for x` loop of
the shift). -/
def copy_row_go (ytm : Nat) : Grid → List Nat → Option Grid
  | g, [] => some g
  | g, x :: xs =>
    match grid_get g x ytm with
    | none => none
    | some c =>
      match grid_set g x (ytm + 1) c with
      | none => none
      | some g' => copy_row_go ytm g' xs

def copy_row (g : Grid) (ytm : Nat) : Option Grid :=
  copy_row_go ytm g (List.range GRID_WIDTH)

/-- The `while y_to_move >= 0` shift loop.  `fuel` is the exact iteration
count `(ytm + 1).toNat` supplied by `shift_rows`; since `ytm` decreases by
one per iteration, the loop guard fails exactly when the fuel runs out, so
the `0` case coincides with the source loop's exit. -/
def shift_go : Grid → Int → Nat → Option Grid
  | g, _, 0 => some g
  | g, ytm, fuel + 1 =>
    if 0 ≤ ytm then
      match copy_row g ytm.toNat with
      | none => none
      | some g' => shift_go g' (ytm - 1) fuel
    else some g

def shift_rows (g : Grid) (ytm : Int) : Option Grid :=
  shift_go g ytm (ytm + 1).toNat

/-- Outer `for y in 0..GRID_HEIGHT` loop of `remove_complete_lines`,
threading the mutated grid and the removed-line counter.  The shift start
index is the source's `(y - 1) as i32`: a wrapping `usize` subtraction
followed by truncation to `i32` (for `y = 0` this yields `-1` and the
shift loop body never runs). -/
def remove_lines_go : Grid → Nat → List Nat → Option (Grid × Nat)
  | g, count, [] => some (g, count)
  | g, count, y :: ys =>
    Option.elim (row_full g y) none (fun full =>
      if full then
        Option.elim (shift_rows g (cast_i32 (usize_wrap_sub y 1))) none
          (fun g' => remove_lines_go g' (count + 1) ys)
      else remove_lines_go g count ys)

/-- Source `MainState::remove_complete_lines`, acting on the grid and
returning the new grid with the number of removed lines. -/
def remove_complete_lines (g : Grid) : Option (Grid × Nat) :=
  remove_lines_go g 0 (List.range GRID_HEIGHT)

/-- Source `MainState::compute_score` (the `println!` is a side effect). -/
def score_factor (line_removed : Nat) : Int :=
  match line_removed with
  | 1 => 40
  | 2 => 100
  | 3 => 300
  | 4 => 1200
  | _ => 0

def compute_score (s : MainState) (line_removed : Nat) : MainState :=
  { s with score := wrap_i64 (s.score + score_factor line_removed * (s.level : Int)) }

/-- Source `MainState::increase_level` (sound-pitch side effects omitted);
`drop_speed` is called with the already-incremented level. -/
def increase_level (ds : Nat → Nat) (s : MainState) : MainState :=
  if s.level * 5 < s.line_removed then
    { s with level := s.level + 1, move_speed := ds (s.level + 1) }
  else s

/-- The `(0..GRID_HEIGHT + 1).find(...)` search in
`update_current_piece_ghost`; `none` models both a panicking collision
check and the `unwrap` of an exhausted search. -/
def ghost_find_go (g : Grid) (p : Piece) : List Nat → Option Int
  | [] => none
  | off :: rest =>
    match check_collision g p 0 (off : Int) with
    | none => none
    | some true => some (off : Int)
    | some false => ghost_find_go g p rest

/-- Source `MainState::update_current_piece_ghost`.  The final
`self.current_piece_ghost_offset_y.min(piece.y)` of the source discards
its result and is a no-op, so it is not modelled. -/
def update_ghost (s : MainState) : Option MainState :=
  match s.current_piece with
  | none => some s
  | some piece =>
    match ghost_find_go s.grid piece (List.range (GRID_HEIGHT + 1)) with
    | none => none
    | some off =>
      some ({ s with current_piece_ghost_offset_y := off + piece.y - 1 })

/-- Source `MainState::generate_piece`: returns the source's `bool`
(`false` = the freshly spawned piece does not fit = game over) together
with the new state. -/
def generate_piece (draws : Nat → Nat) (delta : Nat) (s : MainState) :
    Option (Bool × MainState) :=
  if s.current_piece.isSome then some (true, s)
  else
    let t := s.timer_piece_generation + delta
    if s.move_speed < t then
      match s.next_pieces with
      | [] => none
      | piece :: rest =>
        match check_collision s.grid piece 0 0 with
        | none => none
        | some coll =>
          match update_ghost { s with timer_piece_generation := 0,
                                      current_piece := some piece,
                                      next_pieces := rest } with
          | none => none
          | some s2 =>
            match create_piece (sample_case (draws s.rng_index)) with
            | none => none
            | some np =>
              some (!coll, { s2 with next_pieces := s2.next_pieces ++ [np],
                                     rng_index := s2.rng_index + 1 })
    else some (true, { s with timer_piece_generation := t })

/-- Source `MainState::piece_move_down`: returns the source's `bool`
(`true` = the piece locked this tick) with the new state.  `&&`
short-circuits, so the collision check runs only when `should_move`. -/
def piece_move_down (delta : Nat) (s : MainState) : Option (Bool × MainState) :=
  match s.current_piece with
  | none => some (false, s)
  | some piece =>
    if s.move_speed < piece.last_move + delta then
      match check_collision s.grid piece 0 1 with
      | none => none
      | some coll =>
        if coll then
          match put_piece_in_grid s.grid piece with
          | none => none
          | some g' => some (true, { s with grid := g', current_piece := none })
        else
          some (false,
            { s with current_piece := some ({ piece with y := piece.y + 1, last_move := 0 }) })
    else
      some (false,
        { s with current_piece := some ({ piece with last_move := piece.last_move + delta }) })

/-- The `while !check_collision(.., 0, 1) { y += 1 }` loop of
`piece_drop`.  `fuel` is an upper bound on the iteration count supplied by
`piece_drop`: once `y + 1 + height > GRID_HEIGHT` the check returns
`some true`, so the loop runs at most `(21 - y).toNat` times and the
fuel-exhaustion arm is unreachable from `piece_drop`. -/
def drop_go (g : Grid) : Nat → Piece → Option Piece
  | 0, p =>
    match check_collision g p 0 1 with
    | none => none
    | some true => some p
    | some false => none
  | fuel + 1, p =>
    match check_collision g p 0 1 with
    | none => none
    | some true => some p
    | some false => drop_go g fuel { p with y := p.y + 1 }

/-- Source `MainState::piece_drop` (hard drop). -/
def piece_drop (s : MainState) : Option MainState :=
  match s.current_piece with
  | none => some s
  | some p =>
    match drop_go s.grid (21 - p.y).toNat p with
    | none => none
    | some p' => some ({ s with current_piece := some p' })

/-- Source `EventHandler::update` (one tick): spawn if needed, apply
gravity, and on a lock run line clear, scoring and leveling; on a failed
spawn (`lost`) reset.  Audio and text side effects omitted. -/
def update (draws ds : Nat → Nat) (delta : Nat) (s : MainState) :
    Option MainState :=
  match generate_piece draws delta s with
  | none => none
  | some (fit, s1) =>
    if fit then
      match piece_move_down delta s1 with
      | none => none
      | some (done, s2) =>
        if done then
          match remove_complete_lines s2.grid with
          | none => none
          | some (g', lr) =>
            if 0 < lr then
              let s3 := compute_score { s2 with grid := g' } lr
              let s4 := { s3 with line_removed := s3.line_removed + lr }
              some (increase_level ds s4)
            else some { s2 with grid := g' }
        else some s2
    else reset draws ds s1

/-- Specification-side collision predicate (the claim's wording): the
bounding-box bottom edge would exceed `GRID_HEIGHT`, the left/right edges
would leave `[0, GRID_WIDTH)`, or some non-empty template cell maps onto a
non-empty grid cell. -/
def collision_spec (g : Grid) (p : Piece) (dx dy : Int) : Prop :=
  (GRID_HEIGHT : Int) < p.y + dy + p.cases.length ∨
  p.x + dx < 0 ∨ (GRID_WIDTH : Int) < p.x + dx + ((p.cases.headD []).length : Int) ∨
  ∃ i < p.cases.length, ∃ j < (p.cases.getD i []).length,
    (p.cases.getD i []).getD j Case.Empty ≠ Case.Empty ∧
    0 ≤ p.x + dx + j ∧ p.x + dx + (j : Int) < (GRID_WIDTH : Int) ∧
    0 ≤ p.y + dy + i ∧ p.y + dy + (i : Int) < (GRID_HEIGHT : Int) ∧
    grid_at g (p.x + dx + j) (p.y + dy + i) ≠ Case.Empty

/-- Specification-side shared default kick table, from the spec's words. -/
def spec_kick_default (i : Fin 4) : Offset :=
  match i with
  | 0 => ⟨1, 0⟩
  | 1 => ⟨-1, 1⟩
  | 2 => ⟨0, -1⟩
  | 3 => ⟨0, 0⟩

/-- Specification-side long-bar kick table, from the spec's words. -/
def spec_kick_cyan (i : Fin 4) : Offset :=
  match i with
  | 0 => ⟨2, -1⟩
  | 1 => ⟨-2, 2⟩
  | 2 => ⟨1, -2⟩
  | 3 => ⟨-1, 1⟩

/-! Helper lemmas. -/

lemma wrap_i64_eq_self (v : Int) (h1 : -I64_HALF ≤ v) (h2 : v < I64_HALF) :
    wrap_i64 v = v := by
  unfold wrap_i64 I64_MOD I64_HALF at *
  omega

lemma grid_get_i_eq_at (g : Grid) (x y : Int) (hx1 : 0 ≤ x) (hx2 : x < 10)
    (hy1 : 0 ≤ y) (hy2 : y < 20) :
    grid_get_i g x y = some (grid_at g x y) := by
  unfold grid_get_i grid_at
  rw [dif_pos ⟨hx1, hx2⟩, dif_pos ⟨hy1, hy2⟩, dif_pos ⟨hx1, hx2⟩, dif_pos ⟨hy1, hy2⟩]

lemma exists_lt_succ_shift {n : Nat} (P : Nat → Prop) (h0 : ¬ P 0) :
    (∃ k, k < n + 1 ∧ P k) ↔ (∃ k, k < n ∧ P (k + 1)) := by
  constructor
  · rintro ⟨k, hk, hP⟩
    cases k with
    | zero => exact absurd hP h0
    | succ k => exact ⟨k, by omega, hP⟩
  · rintro ⟨k, hk, hP⟩
    exact ⟨k + 1, by omega, hP⟩

lemma collide_row_true_iff (g : Grid) (iy : Int) (hy1 : 0 ≤ iy) (hy2 : iy < 20)
    (px : Int) (hpx : 0 ≤ px) :
    ∀ (row : List Case) (j : Nat), px + j + row.length ≤ 10 →
    (collide_row g iy px j row = some true ↔
      ∃ k, k < row.length ∧ (row.getD k Case.Empty ≠ Case.Empty ∧
        grid_at g (px + j + k) iy ≠ Case.Empty)) := by
  intro row
  induction row with
  | nil =>
    intro j hle
    simp [collide_row]
  | cons c rest ih =>
    intro j hle
    have hle' : px + (j + 1 : Nat) + rest.length ≤ 10 := by
      simp only [List.length_cons] at hle
      push_cast at hle ⊢
      omega
    have hshift : ∀ k : Nat, px + (j : Int) + ((k + 1 : Nat) : Int) =
        px + ((j + 1 : Nat) : Int) + (k : Int) := by
      intro k; push_cast; ring
    unfold collide_row
    by_cases hc : c = Case.Empty
    · rw [if_neg (by simp [hc])]
      rw [ih (j + 1) hle']
      rw [show (c :: rest).length = rest.length + 1 from rfl]
      rw [exists_lt_succ_shift _ (by simp [hc])]
      constructor
      · rintro ⟨k, hk, h1, h2⟩
        exact ⟨k, hk, by simpa using h1, by rw [hshift k]; exact h2⟩
      · rintro ⟨k, hk, h1, h2⟩
        exact ⟨k, hk, by simpa using h1, by rw [hshift k] at h2; exact h2⟩
    · rw [if_pos hc]
      have hxk : px + (j : Int) < 10 := by
        simp only [List.length_cons] at hle
        push_cast at hle
        omega
      have hxk0 : 0 ≤ px + (j : Int) := by positivity
      rw [grid_get_i_eq_at g (px + j) iy hxk0 hxk hy1 hy2]
      show (if grid_at g (px + (j : Int)) iy ≠ Case.Empty then some true
          else collide_row g iy px (j + 1) rest) = some true ↔ _
      by_cases hcell : grid_at g (px + (j : Int)) iy = Case.Empty
      · rw [if_neg (by simpa using hcell)]
        rw [ih (j + 1) hle']
        rw [show (c :: rest).length = rest.length + 1 from rfl]
        rw [exists_lt_succ_shift _ (by
          rintro ⟨-, h2⟩
          exact h2 (by simpa using hcell))]
        constructor
        · rintro ⟨k, hk, h1, h2⟩
          exact ⟨k, hk, by simpa using h1, by rw [hshift k]; exact h2⟩
        · rintro ⟨k, hk, h1, h2⟩
          exact ⟨k, hk, by simpa using h1, by rw [hshift k] at h2; exact h2⟩
      · rw [if_pos hcell]
        have hP : ∃ k, k < (c :: rest).length ∧ ((c :: rest).getD k Case.Empty ≠ Case.Empty ∧
            grid_at g (px + (j : Int) + (k : Nat)) iy ≠ Case.Empty) :=
          ⟨0, by simp, by simpa using hc, by simpa using hcell⟩
        exact iff_of_true rfl hP

lemma collide_row_isSome (g : Grid) (iy : Int) (hy1 : 0 ≤ iy) (hy2 : iy < 20)
    (px : Int) (hpx : 0 ≤ px) :
    ∀ (row : List Case) (j : Nat), px + j + row.length ≤ 10 →
    (collide_row g iy px j row).isSome := by
  intro row
  induction row with
  | nil => intro j _; rfl
  | cons c rest ih =>
    intro j hle
    have hle' : px + (j + 1 : Nat) + rest.length ≤ 10 := by
      simp only [List.length_cons] at hle
      push_cast at hle ⊢
      omega
    unfold collide_row
    by_cases hc : c = Case.Empty
    · rw [if_neg (by simp [hc])]
      exact ih (j + 1) hle'
    · rw [if_pos hc]
      have hxk : px + (j : Int) < 10 := by
        simp only [List.length_cons] at hle
        push_cast at hle
        omega
      rw [grid_get_i_eq_at g (px + j) iy (by positivity) hxk hy1 hy2]
      show (if grid_at g (px + (j : Int)) iy ≠ Case.Empty then some true
          else collide_row g iy px (j + 1) rest).isSome
      by_cases hcell : grid_at g (px + (j : Int)) iy = Case.Empty
      · rw [if_neg (by simpa using hcell)]
        exact ih (j + 1) hle'
      · rw [if_pos hcell]
        rfl

lemma collide_cells_true_iff (g : Grid) (px : Int) (hpx : 0 ≤ px) (py : Int)
    (hpy : 0 ≤ py) :
    ∀ (rows : List (List Case)) (i : Nat),
      (∀ r ∈ rows, px + (r.length : Int) ≤ 10) →
      py + i + rows.length ≤ 20 →
      (collide_cells g px py i rows = some true ↔
        ∃ a, a < rows.length ∧ ∃ k, k < (rows.getD a []).length ∧
          ((rows.getD a []).getD k Case.Empty ≠ Case.Empty ∧
           grid_at g (px + k) (py + i + a) ≠ Case.Empty)) := by
  intro rows
  induction rows with
  | nil =>
    intro i _ _
    simp [collide_cells]
  | cons row rest ih =>
    intro i hw hh
    have hh' : py + (i + 1 : Nat) + rest.length ≤ 20 := by
      simp only [List.length_cons] at hh
      push_cast at hh ⊢
      omega
    have hyr1 : 0 ≤ py + (i : Int) := by positivity
    have hyr2 : py + (i : Int) < 20 := by
      simp only [List.length_cons] at hh
      push_cast at hh
      omega
    have hshift : ∀ a : Nat, py + (i : Int) + ((a + 1 : Nat) : Int) =
        py + ((i + 1 : Nat) : Int) + (a : Int) := by
      intro a; push_cast; ring
    have hw0 : px + ((0 : Nat) : Int) + row.length ≤ 10 := by
      simpa using hw row (by simp)
    have hrow_iff := collide_row_true_iff g (py + i) hyr1 hyr2 px hpx row 0 hw0
    simp only [Nat.cast_zero, add_zero] at hrow_iff
    have hrs := collide_row_isSome g (py + i) hyr1 hyr2 px hpx row 0 hw0
    rw [Option.isSome_iff_exists] at hrs
    obtain ⟨b, hb⟩ := hrs
    unfold collide_cells
    rw [hb]
    cases b
    · have hnrow : ¬ ∃ k, k < row.length ∧ (row.getD k Case.Empty ≠ Case.Empty ∧
          grid_at g (px + k) (py + i) ≠ Case.Empty) := by
        rw [← hrow_iff, hb]
        simp
      show collide_cells g px py (i + 1) rest = some true ↔ _
      rw [ih (i + 1) (fun r hr => hw r (by simp [hr])) hh']
      rw [show (row :: rest).length = rest.length + 1 from rfl]
      rw [exists_lt_succ_shift _ (by
        rintro ⟨k, hk, h1, h2⟩
        exact hnrow ⟨k, by simpa using hk, by simpa using h1, by simpa using h2⟩)]
      constructor
      · rintro ⟨a, ha, k, hk, h1, h2⟩
        exact ⟨a, ha, k, by simpa using hk, by simpa using h1,
          by rw [hshift a]; exact h2⟩
      · rintro ⟨a, ha, k, hk, h1, h2⟩
        rw [hshift a] at h2
        exact ⟨a, ha, k, by simpa using hk, by simpa using h1, h2⟩
    · obtain ⟨k, hk, h1, h2⟩ := hrow_iff.mp hb
      refine iff_of_true rfl ⟨0, by simp, k, by simpa using hk, by simpa using h1, ?_⟩
      simpa using h2

lemma collide_cells_isSome (g : Grid) (px : Int) (hpx : 0 ≤ px) (py : Int)
    (hpy : 0 ≤ py) :
    ∀ (rows : List (List Case)) (i : Nat),
      (∀ r ∈ rows, px + (r.length : Int) ≤ 10) →
      py + i + rows.length ≤ 20 →
      (collide_cells g px py i rows).isSome := by
  intro rows
  induction rows with
  | nil => intro i _ _; rfl
  | cons row rest ih =>
    intro i hw hh
    have hh' : py + (i + 1 : Nat) + rest.length ≤ 20 := by
      simp only [List.length_cons] at hh
      push_cast at hh ⊢
      omega
    have hyr1 : 0 ≤ py + (i : Int) := by positivity
    have hyr2 : py + (i : Int) < 20 := by
      simp only [List.length_cons] at hh
      push_cast at hh
      omega
    have hw0 : px + ((0 : Nat) : Int) + row.length ≤ 10 := by
      simpa using hw row (by simp)
    have hrs := collide_row_isSome g (py + i) hyr1 hyr2 px hpx row 0 hw0
    rw [Option.isSome_iff_exists] at hrs
    obtain ⟨b, hb⟩ := hrs
    unfold collide_cells
    rw [hb]
    cases b
    · exact ih (i + 1) (fun r hr => hw r (by simp [hr])) hh'
    · rfl

lemma row_full_go_some (g : Grid) (y : Nat) (hy : y < 20) :
    ∀ (xs : List Nat) (acc : Bool), (∀ x ∈ xs, x < 10) →
    (row_full_go g y acc xs).isSome := by
  intro xs
  induction xs with
  | nil => intro acc _; rfl
  | cons x xs ih =>
    intro acc hmem
    have hx : x < 10 := hmem x (by simp)
    unfold row_full_go
    split
    · next heq =>
      exfalso
      unfold grid_get at heq
      rw [dif_pos hx, dif_pos hy] at heq
      exact Option.noConfusion heq
    · exact ih _ (fun z hz => hmem z (by simp [hz]))

lemma row_full_go_true (g : Grid) (y : Nat) (hy : y < 20)
    (hfull : ∀ x : Fin 10, g x ⟨y, hy⟩ ≠ Case.Empty) :
    ∀ (xs : List Nat), (∀ x ∈ xs, x < 10) →
    row_full_go g y true xs = some true := by
  intro xs
  induction xs with
  | nil => intro _; rfl
  | cons x xs ih =>
    intro hmem
    have hx : x < 10 := hmem x (by simp)
    unfold row_full_go
    split
    · next heq =>
      exfalso
      unfold grid_get at heq
      rw [dif_pos hx, dif_pos hy] at heq
      exact Option.noConfusion heq
    · next c heq =>
      unfold grid_get at heq
      rw [dif_pos hx, dif_pos hy] at heq
      have hc : c = g ⟨x, hx⟩ ⟨y, hy⟩ := (Option.some.inj heq).symm
      have hacc : (true && decide (c ≠ Case.Empty)) = true := by
        subst hc
        simp [hfull ⟨x, hx⟩]
      rw [hacc]
      exact ih (fun z hz => hmem z (by simp [hz]))

lemma copy_row_go_some (ytm : Nat) (hy : ytm + 1 < 20) :
    ∀ (xs : List Nat) (g : Grid), (∀ x ∈ xs, x < 10) →
    (copy_row_go ytm g xs).isSome := by
  intro xs
  induction xs with
  | nil => intro g _; rfl
  | cons x xs ih =>
    intro g hmem
    have hx : x < 10 := hmem x (by simp)
    unfold copy_row_go
    split
    · next heq =>
      exfalso
      unfold grid_get at heq
      rw [dif_pos hx, dif_pos (show ytm < 20 by omega)] at heq
      exact Option.noConfusion heq
    · next c heq =>
      split
      · next heq2 =>
        exfalso
        unfold grid_set at heq2
        rw [dif_pos hx, dif_pos hy] at heq2
        exact Option.noConfusion heq2
      · next g2 heq2 => exact ih g2 (fun z hz => hmem z (by simp [hz]))

lemma shift_go_some : ∀ (fuel : Nat) (ytm : Int) (g : Grid), ytm ≤ 18 →
    (shift_go g ytm fuel).isSome := by
  intro fuel
  induction fuel with
  | zero => intro ytm g _; rfl
  | succ fuel ih =>
    intro ytm g h18
    unfold shift_go
    by_cases h0 : 0 ≤ ytm
    · rw [if_pos h0]
      split
      · next heq =>
        exfalso
        have hcp : (copy_row_go ytm.toNat g (List.range 10)).isSome :=
          copy_row_go_some ytm.toNat (by omega) (List.range 10) g
            (fun z hz => List.mem_range.mp hz)
        have hcp2 : (copy_row g ytm.toNat).isSome := hcp
        rw [heq] at hcp2
        exact Bool.noConfusion hcp2
      · next g2 heq => exact ih (ytm - 1) g2 (by omega)
    · rw [if_neg h0]; rfl

lemma cast_sub_one_le (y : Nat) (hy : y < 20) :
    cast_i32 (usize_wrap_sub y 1) ≤ 18 := by
  unfold cast_i32 usize_wrap_sub USIZE_MOD
  split <;> omega

lemma remove_lines_go_some : ∀ (ys : List Nat) (g : Grid) (c : Nat),
    (∀ y ∈ ys, y < 20) →
    ∃ g' c', remove_lines_go g c ys = some (g', c') ∧ c ≤ c' := by
  intro ys
  induction ys with
  | nil => intro g c _; exact ⟨g, c, rfl, le_refl c⟩
  | cons y ys ih =>
    intro g c hmem
    have hy : y < 20 := hmem y (by simp)
    have hb : (row_full_go g y true (List.range 10)).isSome :=
      row_full_go_some g y hy (List.range 10) true (fun z hz => List.mem_range.mp hz)
    have hb2 : (row_full g y).isSome := hb
    rw [Option.isSome_iff_exists] at hb2
    obtain ⟨b, hb3⟩ := hb2
    rw [remove_lines_go, hb3]
    cases b
    · exact ih g c (fun z hz => hmem z (by simp [hz]))
    · have hsh : (shift_go g (cast_i32 (usize_wrap_sub y 1))
          (cast_i32 (usize_wrap_sub y 1) + 1).toNat).isSome :=
        shift_go_some _ _ g (cast_sub_one_le y hy)
      have hsh2 : (shift_rows g (cast_i32 (usize_wrap_sub y 1))).isSome := hsh
      rw [Option.isSome_iff_exists] at hsh2
      obtain ⟨g2, hsh3⟩ := hsh2
      rw [hsh3]
      obtain ⟨g', c', h, hc⟩ := ih g2 (c + 1) (fun z hz => hmem z (by simp [hz]))
      refine ⟨g', c', ?_, by omega⟩
      show Option.elim (some true) none _ = _
      simpa using h

lemma drop_go_spec (g : Grid) : ∀ (fuel : Nat) (p p' : Piece),
    drop_go g fuel p = some p' →
    p'.case = p.case ∧ p'.cases = p.cases ∧ p'.x = p.x ∧
    p'.index_rotation = p.index_rotation ∧ p'.last_move = p.last_move ∧
    p.y ≤ p'.y ∧
    (∀ k : Int, p.y ≤ k → k < p'.y →
      check_collision g { p with y := k } 0 1 = some false) ∧
    check_collision g { p with y := p'.y } 0 1 = some true := by
  intro fuel
  induction fuel with
  | zero =>
    intro p p' h
    unfold drop_go at h
    split at h
    · exact absurd h (by simp)
    · next hc =>
      have hp : p' = p := (Option.some.inj h).symm
      subst hp
      refine ⟨rfl, rfl, rfl, rfl, rfl, le_refl _, ?_, ?_⟩
      · intro k hk1 hk2
        exact absurd (lt_of_le_of_lt hk1 hk2) (lt_irrefl _)
      · exact hc
    · exact absurd h (by simp)
  | succ fuel ih =>
    intro p p' h
    unfold drop_go at h
    split at h
    · exact absurd h (by simp)
    · next hc =>
      have hp : p' = p := (Option.some.inj h).symm
      subst hp
      refine ⟨rfl, rfl, rfl, rfl, rfl, le_refl _, ?_, ?_⟩
      · intro k hk1 hk2
        exact absurd (lt_of_le_of_lt hk1 hk2) (lt_irrefl _)
      · exact hc
    · next hc =>
      obtain ⟨h1, h2, h3, h4, h5, h6, h7, h8⟩ := ih { p with y := p.y + 1 } p' h
      have h6' : p.y + 1 ≤ p'.y := h6
      refine ⟨h1, h2, h3, h4, h5, by omega, ?_, h8⟩
      intro k hk1 hk2
      by_cases hk : k = p.y
      · subst hk
        exact hc
      · exact h7 k ((by omega : p.y + 1 ≤ k) : p.y + 1 ≤ k) hk2

lemma update_ghost_fields (s s' : MainState) (h : update_ghost s = some s') :
    s'.grid = s.grid ∧ s'.current_piece = s.current_piece ∧
    s'.next_pieces = s.next_pieces ∧ s'.move_speed = s.move_speed ∧
    s'.timer_piece_generation = s.timer_piece_generation ∧ s'.score = s.score ∧
    s'.level = s.level ∧ s'.line_removed = s.line_removed ∧
    s'.rng_index = s.rng_index := by
  unfold update_ghost at h
  split at h
  · have hs : s' = s := (Option.some.inj h).symm
    subst hs
    exact ⟨rfl, rfl, rfl, rfl, rfl, rfl, rfl, rfl, rfl⟩
  · split at h
    · exact absurd h (by simp)
    · have hs : s' = _ := (Option.some.inj h).symm
      subst hs
      exact ⟨rfl, rfl, rfl, rfl, rfl, rfl, rfl, rfl, rfl⟩

lemma generate_piece_queue_length (draws : Nat → Nat) (delta : Nat)
    (s : MainState) (b : Bool) (s1 : MainState)
    (h : generate_piece draws delta s = some (b, s1)) :
    s1.next_pieces.length = s.next_pieces.length := by
  simp only [generate_piece] at h
  split at h
  · have : (b, s1) = (true, s) := (Option.some.inj h).symm
    rw [show s1 = s from congrArg Prod.snd this]
  · split at h
    · split at h
      · exact absurd h (by simp)
      · next piece rest hnp =>
        split at h
        · exact absurd h (by simp)
        · next coll hcc =>
          split at h
          · exact absurd h (by simp)
          · next s2 hgh =>
            split at h
            · exact absurd h (by simp)
            · next np hcr =>
              have hpair := (Option.some.inj h).symm
              have hs1 : s1 = { s2 with next_pieces := s2.next_pieces ++ [np], rng_index := s2.rng_index + 1 } := congrArg Prod.snd hpair
              obtain ⟨_, _, hq, _⟩ := update_ghost_fields _ _ hgh
              rw [hs1]
              show (s2.next_pieces ++ [np]).length = s.next_pieces.length
              rw [hq, hnp]
              simp
    · have hs1 : s1 = { s with timer_piece_generation := s.timer_piece_generation + delta } := congrArg Prod.snd (Option.some.inj h).symm
      rw [hs1]

lemma piece_move_down_queue (delta : Nat) (s : MainState) (b : Bool) (s' : MainState)
    (h : piece_move_down delta s = some (b, s')) :
    s'.next_pieces = s.next_pieces := by
  unfold piece_move_down at h
  split at h
  · have : s' = s := congrArg Prod.snd (Option.some.inj h).symm
    rw [this]
  · split at h
    · split at h
      · exact absurd h (by simp)
      · split at h
        · split at h
          · exact absurd h (by simp)
          · have : s' = _ := congrArg Prod.snd (Option.some.inj h).symm
            rw [this]
        · have : s' = _ := congrArg Prod.snd (Option.some.inj h).symm
          rw [this]
    · have : s' = _ := congrArg Prod.snd (Option.some.inj h).symm
      rw [this]

lemma increase_level_queue (ds : Nat → Nat) (s : MainState) :
    (increase_level ds s).next_pieces = s.next_pieces := by
  unfold increase_level
  split <;> rfl

lemma reset_result (draws ds : Nat → Nat) (s s₁ : MainState)
    (h : reset draws ds s = some s₁) :
    s₁.next_pieces.length = NEXT_PIECES_COUNT ∧ s₁.rng_index = s.rng_index + 3 := by
  unfold reset at h
  split at h
  · have hs : s₁ = _ := (Option.some.inj h).symm
    subst hs
    exact ⟨rfl, rfl⟩
  · exact absurd h (by simp)

/-! Claim theorems and witnesses. -/

/-- Example grid for claim C1: cell `(0, 0)` is occupied and the bottom row
(row 19) is completely full; everything else is empty. -/
def bug_grid : Grid := fun x y =>
  if (y : Nat) = 19 then Case.Red
  else if (x : Nat) = 0 ∧ (y : Nat) = 0 then Case.Red
  else Case.Empty

/-- Example grid whose top row (row 0) is completely full. -/
def full_top_grid : Grid := fun _ y => if (y : Nat) = 0 then Case.Red else Case.Empty

/-- Claim C1 (code bug): `remove_complete_lines` does not backfill the top
rows with `Empty`.  On `bug_grid` (row 19 full, one stray cell at `(0, 0)`)
it removes the bottom row and returns count 1, but the old top row stays in
place and is duplicated into row 1, so the top row is not left empty as the
claim requires.  On `full_top_grid` (row 0 itself full) the full top row is
counted (count 1) yet remains in the grid: the shift loop only copies the
rows above a full row downward and never clears row 0. -/
theorem remove_complete_lines_top_row_not_backfilled :
    (remove_complete_lines bug_grid).map
        (fun r => (r.2, r.1 0 0, r.1 0 1, r.1 0 19)) =
      some (1, Case.Red, Case.Red, Case.Empty) ∧
    (remove_complete_lines full_top_grid).map
        (fun r => (r.2, r.1 0 0, r.1 5 0)) =
      some (1, Case.Red, Case.Red) := by decide

/-- Claim C2: for every grid and piece with nonnegative shifted vertical
position (and the `Piece` well-formedness invariants: a nonempty,
rectangular shape matrix), `check_collision` returns `true` exactly when
the bounding-box bottom edge would exceed `GRID_HEIGHT`, the left/right
edges would leave `[0, GRID_WIDTH)`, or some non-empty shape cell maps
onto a non-empty grid cell; in every other case it returns `false`. -/
theorem check_collision_iff_collision_spec (g : Grid) (p : Piece) (dx dy : Int)
    (hy0 : 0 ≤ p.y + dy) (hne : p.cases ≠ [])
    (hrect : ∀ r ∈ p.cases, r.length = (p.cases.headD []).length) :
    (check_collision g p dx dy = some true ↔ collision_spec g p dx dy) ∧
    (check_collision g p dx dy = some false ↔ ¬ collision_spec g p dx dy) := by
  have hA : check_collision g p dx dy = some true ↔ collision_spec g p dx dy := by
    unfold collision_spec
    simp only [check_collision]
    by_cases hbot : (GRID_HEIGHT : Int) < p.y + dy + (p.cases.length : Int)
    · rw [if_pos hbot]
      exact iff_of_true rfl (Or.inl hbot)
    · rw [if_neg hbot]
      rcases hcs : p.cases with _ | ⟨r0, rs⟩
      · exact absurd hcs hne
      · rw [hcs] at hbot hrect
        simp only [List.headD_cons] at hrect ⊢
        show (if p.x + dx < 0 ∨ (GRID_WIDTH : Int) < p.x + dx + (r0.length : Int)
            then some true
            else collide_cells g (p.x + dx) (p.y + dy) 0 (r0 :: rs)) = some true ↔ _
        by_cases hedge : p.x + dx < 0 ∨ (GRID_WIDTH : Int) < p.x + dx + (r0.length : Int)
        · rw [if_pos hedge]
          refine iff_of_true rfl ?_
          rcases hedge with h | h
          · exact Or.inr (Or.inl h)
          · exact Or.inr (Or.inr (Or.inl h))
        · rw [if_neg hedge]
          push_neg at hedge
          obtain ⟨hx0, hxw⟩ := hedge
          have hxw' : p.x + dx + (r0.length : Int) ≤ 10 := by
            simpa [GRID_WIDTH] using hxw
          have hw : ∀ r ∈ r0 :: rs, p.x + dx + (r.length : Int) ≤ 10 := by
            intro r hr
            rw [hrect r hr]
            exact hxw'
          have hbot' : p.y + dy + ((r0 :: rs).length : Int) ≤ 20 := by
            simp only [GRID_HEIGHT] at hbot
            push_cast at hbot ⊢
            omega
          have hh : (p.y + dy) + ((0 : Nat) : Int) + ((r0 :: rs).length : Int) ≤ 20 := by
            simpa using hbot'
          rw [collide_cells_true_iff g (p.x + dx) hx0 (p.y + dy) hy0 (r0 :: rs) 0 hw hh]
          simp only [Nat.cast_zero, add_zero]
          constructor
          · rintro ⟨a, ha, k, hk, h1, h2⟩
            have hrowlen : ((r0 :: rs).getD a []).length = r0.length := by
              refine hrect _ ?_
              rw [List.getD_eq_getElem _ _ (by simpa using ha)]
              exact List.getElem_mem _
            refine Or.inr (Or.inr (Or.inr ⟨a, ha, k, hk, h1, ?_, ?_, ?_, ?_, h2⟩))
            · positivity
            · rw [hrowlen] at hk
              simp only [GRID_WIDTH]
              push_cast
              omega
            · positivity
            · simp only [GRID_HEIGHT]
              simp only [List.length_cons] at hbot'
              push_cast at hbot' ⊢
              omega
          · rintro (h | h | h | ⟨a, ha, k, hk, h1, hr1, hr2, hr3, hr4, h2⟩)
            · exact absurd h hbot
            · exact absurd h (by omega)
            · exact absurd h (by simp only [GRID_WIDTH] at *; push_cast at hxw' ⊢; omega)
            · exact ⟨a, ha, k, hk, h1, h2⟩
  have hB : (check_collision g p dx dy).isSome := by
    simp only [check_collision]
    by_cases hbot : (GRID_HEIGHT : Int) < p.y + dy + (p.cases.length : Int)
    · rw [if_pos hbot]; rfl
    · rw [if_neg hbot]
      rcases hcs : p.cases with _ | ⟨r0, rs⟩
      · exact absurd hcs hne
      · rw [hcs] at hbot hrect
        simp only [List.headD_cons] at hrect
        show (if p.x + dx < 0 ∨ (GRID_WIDTH : Int) < p.x + dx + (r0.length : Int)
            then some true
            else collide_cells g (p.x + dx) (p.y + dy) 0 (r0 :: rs)).isSome
        by_cases hedge : p.x + dx < 0 ∨ (GRID_WIDTH : Int) < p.x + dx + (r0.length : Int)
        · rw [if_pos hedge]; rfl
        · rw [if_neg hedge]
          push_neg at hedge
          obtain ⟨hx0, hxw⟩ := hedge
          have hxw' : p.x + dx + (r0.length : Int) ≤ 10 := by
            simpa [GRID_WIDTH] using hxw
          have hw : ∀ r ∈ r0 :: rs, p.x + dx + (r.length : Int) ≤ 10 := by
            intro r hr
            rw [hrect r hr]
            exact hxw'
          have hh : (p.y + dy) + ((0 : Nat) : Int) + ((r0 :: rs).length : Int) ≤ 20 := by
            simp only [GRID_HEIGHT] at hbot
            push_cast at hbot ⊢
            omega
          exact collide_cells_isSome g (p.x + dx) hx0 (p.y + dy) hy0 (r0 :: rs) 0 hw hh
  refine ⟨hA, ?_, ?_⟩
  · intro hf hspec
    have := (hA.mpr hspec).symm.trans hf
    simp at this
  · intro hn
    rw [Option.isSome_iff_exists] at hB
    obtain ⟨b, hb⟩ := hB
    cases b
    · exact hb
    · exact absurd (hA.mp hb) hn

/-- Example piece (the J-like blue piece) for the claim C2 witness. -/
def exC2piece : Piece :=
  { case := Case.Blue, x := 4, y := 17, last_move := 0,
    cases := [[Case.Blue, Case.Empty, Case.Empty], [Case.Blue, Case.Blue, Case.Blue]],
    index_rotation := 0 }

/-- Example grid with one locked cell for the claim C2 witness. -/
def exC2grid : Grid := fun x y =>
  if (x : Nat) = 5 ∧ (y : Nat) = 19 then Case.Green else Case.Empty

theorem check_collision_iff_collision_spec_witness :
    (check_collision exC2grid exC2piece 0 1 = some true ↔
      collision_spec exC2grid exC2piece 0 1) ∧
    (check_collision exC2grid exC2piece 0 1 = some false ↔
      ¬ collision_spec exC2grid exC2piece 0 1) :=
  check_collision_iff_collision_spec exC2grid exC2piece 0 1
    (by decide) (by decide) (by decide)

/-- Claim C3: if every candidate of the fixed 4-step kick sequence of a
rotation collides, `rotate` leaves the whole session state — grid, active
piece shape, position and rotation index — exactly as it was; no partial
mutation is observable. -/
theorem rotate_all_kicks_collide_no_mutation (s : MainState) (p : Piece)
    (tc : List (List Case)) (off : Offset)
    (hp : s.current_piece = some p)
    (htc : rotate_cases p.cases = some tc)
    (hoff : cases_rotation_offset p.case p.index_rotation = some off)
    (h1 : check_collision s.grid (rot_cand1 p tc off) 0 0 = some true)
    (h2 : check_collision s.grid (rot_cand2 p tc off) 0 0 = some true)
    (h3 : check_collision s.grid (rot_cand3 p tc off) 0 0 = some true)
    (h4 : check_collision s.grid (rot_cand4 p tc off) 0 0 = some true) :
    rotate s = some s := by
  unfold rotate rotate_piece
  rw [hp]
  simp only [htc, hoff, h1, h2, h3, h4]
  cases s with
  | mk g cp gh np ms tg sc lv lr ri =>
    dsimp only at hp
    rw [hp]

/-- Fully occupied grid for the claim C3 witness. -/
def ex_full_grid : Grid := fun _ _ => Case.Red

/-- Example active piece for the claim C3 witness. -/
def exC3piece : Piece :=
  { case := Case.Red, x := 4, y := 5, last_move := 0,
    cases := [[Case.Red, Case.Red, Case.Empty], [Case.Empty, Case.Red, Case.Red]],
    index_rotation := 0 }

/-- Example session state for the claim C3 witness. -/
def exC3state : MainState :=
  { grid := ex_full_grid, current_piece := some exC3piece,
    current_piece_ghost_offset_y := 0, next_pieces := [], move_speed := 0,
    timer_piece_generation := 0, score := 0, level := 1, line_removed := 0,
    rng_index := 0 }

theorem rotate_all_kicks_collide_no_mutation_witness :
    rotate exC3state = some exC3state :=
  rotate_all_kicks_collide_no_mutation exC3state exC3piece
    [[Case.Empty, Case.Red], [Case.Red, Case.Red], [Case.Red, Case.Empty]] ⟨1, 0⟩
    rfl (by decide) (by decide) (by decide) (by decide) (by decide) (by decide)

/-- Claim C4: for every level at least 1 (within the `i64` range of the
score field), clearing 1, 2, 3 or 4 lines adds exactly `40 * level`,
`100 * level`, `300 * level` and `1200 * level` to the score. -/
theorem compute_score_table (s : MainState) (hlv : 1 ≤ s.level)
    (hlo : -I64_HALF ≤ s.score)
    (hhi : s.score + 1200 * (s.level : Int) < I64_HALF) :
    (compute_score s 1).score = s.score + 40 * (s.level : Int) ∧
    (compute_score s 2).score = s.score + 100 * (s.level : Int) ∧
    (compute_score s 3).score = s.score + 300 * (s.level : Int) ∧
    (compute_score s 4).score = s.score + 1200 * (s.level : Int) := by
  have hl0 : (0 : Int) ≤ (s.level : Int) := by positivity
  unfold I64_HALF at hlo hhi
  refine ⟨?_, ?_, ?_, ?_⟩
  · show wrap_i64 (s.score + score_factor 1 * (s.level : Int)) = _
    rw [show score_factor 1 = 40 from rfl]
    exact wrap_i64_eq_self _ (by unfold I64_HALF; omega) (by unfold I64_HALF; omega)
  · show wrap_i64 (s.score + score_factor 2 * (s.level : Int)) = _
    rw [show score_factor 2 = 100 from rfl]
    exact wrap_i64_eq_self _ (by unfold I64_HALF; omega) (by unfold I64_HALF; omega)
  · show wrap_i64 (s.score + score_factor 3 * (s.level : Int)) = _
    rw [show score_factor 3 = 300 from rfl]
    exact wrap_i64_eq_self _ (by unfold I64_HALF; omega) (by unfold I64_HALF; omega)
  · show wrap_i64 (s.score + score_factor 4 * (s.level : Int)) = _
    rw [show score_factor 4 = 1200 from rfl]
    exact wrap_i64_eq_self _ (by unfold I64_HALF; omega) (by unfold I64_HALF; omega)

/-- Example session state for the claim C4 witness. -/
def exC4state : MainState :=
  { grid := fun _ _ => Case.Empty, current_piece := none,
    current_piece_ghost_offset_y := 0, next_pieces := [], move_speed := 7,
    timer_piece_generation := 0, score := 5, level := 3, line_removed := 0,
    rng_index := 0 }

theorem compute_score_table_witness :
    (compute_score exC4state 1).score = exC4state.score + 40 * (exC4state.level : Int) ∧
    (compute_score exC4state 2).score = exC4state.score + 100 * (exC4state.level : Int) ∧
    (compute_score exC4state 3).score = exC4state.score + 300 * (exC4state.level : Int) ∧
    (compute_score exC4state 4).score = exC4state.score + 1200 * (exC4state.level : Int) :=
  compute_score_table exC4state (by decide) (by decide) (by decide)

/-- Claim C5: the level increments from `L` to `L + 1` exactly when the
cumulative cleared-line total exceeds `5 * L` (the guard is the strict
comparison `line_removed > level * 5`), and `move_speed` is recomputed
from the new level in the same step; otherwise the state is unchanged.
The final conjunct is the threshold invariant: starting from a state
satisfying `line_removed ≤ 5 * level` (true at reset and preserved by
every tick), one clear of at most 4 lines crosses at most one threshold,
so the increment happens exactly when the total first exceeds `5 * L`. -/
theorem increase_level_threshold (ds : Nat → Nat) (s : MainState) :
    ((s.level * 5 < s.line_removed →
        increase_level ds s =
          { s with level := s.level + 1, move_speed := ds (s.level + 1) }) ∧
     (¬ s.level * 5 < s.line_removed → increase_level ds s = s)) ∧
    (∀ n : Nat, n ≤ 4 → s.line_removed ≤ s.level * 5 →
      (increase_level ds { s with line_removed := s.line_removed + n }).line_removed ≤
        (increase_level ds { s with line_removed := s.line_removed + n }).level * 5) := by
  refine ⟨⟨?_, ?_⟩, ?_⟩
  · intro h
    unfold increase_level
    rw [if_pos h]
  · intro h
    unfold increase_level
    rw [if_neg h]
  · intro n hn hinv
    unfold increase_level
    by_cases h : s.level * 5 < s.line_removed + n
    · simp only [if_pos h]
      omega
    · simp only [if_neg h]
      omega

/-- Example session state (6 lines cleared at level 1) for the claim C5
witness. -/
def exC5state : MainState :=
  { grid := fun _ _ => Case.Empty, current_piece := none,
    current_piece_ghost_offset_y := 0, next_pieces := [], move_speed := 7,
    timer_piece_generation := 0, score := 0, level := 1, line_removed := 6,
    rng_index := 0 }

/-- Example session state (no lines cleared yet) for the claim C5 witness. -/
def exC5base : MainState :=
  { grid := fun _ _ => Case.Empty, current_piece := none,
    current_piece_ghost_offset_y := 0, next_pieces := [], move_speed := 7,
    timer_piece_generation := 0, score := 0, level := 1, line_removed := 0,
    rng_index := 0 }

theorem increase_level_threshold_witness :
    increase_level (fun _ => 9) exC5state =
      { exC5state with level := exC5state.level + 1,
                       move_speed := (fun _ : Nat => 9) (exC5state.level + 1) } ∧
    (increase_level (fun _ => 9)
        { exC5base with line_removed := exC5base.line_removed + 4 }).line_removed ≤
      (increase_level (fun _ => 9)
        { exC5base with line_removed := exC5base.line_removed + 4 }).level * 5 :=
  ⟨(increase_level_threshold (fun _ => 9) exC5state).1.1 (by decide),
   (increase_level_threshold (fun _ => 9) exC5base).2 4 (by decide) (by decide)⟩

/-- Claim C6: the upcoming-piece queue always holds exactly
`NEXT_PIECES_COUNT = 3` entries.  `reset` seeds exactly 3 freshly drawn
pieces (consuming exactly 3 oracle draws); whenever `generate_piece`
consumes the queue head to spawn the active piece it appends exactly one
freshly drawn piece at the tail in the same step; and a full `update`
tick maps a 3-entry queue to a 3-entry queue on every non-panicking
path. -/
theorem queue_always_three (draws ds : Nat → Nat) (delta : Nat) (s : MainState) :
    (∀ s₁, reset draws ds s = some s₁ →
      s₁.next_pieces.length = NEXT_PIECES_COUNT ∧ s₁.rng_index = s.rng_index + 3) ∧
    (∀ b s₂, s.current_piece = none →
      s.move_speed < s.timer_piece_generation + delta →
      generate_piece draws delta s = some (b, s₂) →
      ∃ hd tl np, s.next_pieces = hd :: tl ∧ s₂.next_pieces = tl ++ [np] ∧
        s₂.current_piece = some hd ∧ s₂.rng_index = s.rng_index + 1 ∧
        create_piece (sample_case (draws s.rng_index)) = some np) ∧
    (∀ s₃, s.next_pieces.length = NEXT_PIECES_COUNT →
      update draws ds delta s = some s₃ →
      s₃.next_pieces.length = NEXT_PIECES_COUNT) := by
  refine ⟨fun s₁ h => reset_result draws ds s s₁ h, ?_, ?_⟩
  · intro b s₂ hcpn htimer h
    simp only [generate_piece, hcpn, Option.isSome_none, Bool.false_eq_true, if_false] at h
    rw [if_pos htimer] at h
    split at h
    · exact absurd h (by simp)
    · next piece rest hnp =>
      split at h
      · exact absurd h (by simp)
      · next coll hcc =>
        split at h
        · exact absurd h (by simp)
        · next s2 hgh =>
          split at h
          · exact absurd h (by simp)
          · next np hcr =>
            obtain ⟨_, hcp2, hq, _, _, _, _, _, hri⟩ := update_ghost_fields _ _ hgh
            have hpair := (Option.some.inj h).symm
            have hs2 : s₂ = { s2 with next_pieces := s2.next_pieces ++ [np], rng_index := s2.rng_index + 1 } := congrArg Prod.snd hpair
            refine ⟨piece, rest, np, hnp, ?_, ?_, ?_, hcr⟩
            · rw [hs2]
              show s2.next_pieces ++ [np] = rest ++ [np]
              rw [hq]
            · rw [hs2]
              show s2.current_piece = some piece
              rw [hcp2]
            · rw [hs2]
              show s2.rng_index + 1 = s.rng_index + 1
              rw [hri]
  · intro s₃ hlen h
    unfold update at h
    split at h
    · exact absurd h (by simp)
    · next fit s1 hg =>
      have hq1 : s1.next_pieces.length = NEXT_PIECES_COUNT := by
        rw [generate_piece_queue_length draws delta s fit s1 hg, hlen]
      split at h
      · split at h
        · exact absurd h (by simp)
        · next done s2 hm =>
          have hq2 : s2.next_pieces = s1.next_pieces :=
            piece_move_down_queue delta s1 done s2 hm
          split at h
          · split at h
            · exact absurd h (by simp)
            · next g' lr hr =>
              split at h
              · have hs3 : s₃ = _ := (Option.some.inj h).symm
                subst hs3
                rw [increase_level_queue]
                show (compute_score { s2 with grid := g' } lr).next_pieces.length = _
                show ({ s2 with grid := g' } : MainState).next_pieces.length = _
                show s2.next_pieces.length = _
                rw [hq2, hq1]
              · have hs3 : s₃ = _ := (Option.some.inj h).symm
                subst hs3
                show s2.next_pieces.length = _
                rw [hq2, hq1]
          · have hs3 : s₃ = s2 := (Option.some.inj h).symm
            subst hs3
            rw [hq2, hq1]
      · exact (reset_result draws ds s1 s₃ h).1

/-- Example queued piece for the claim C6 witness. -/
def exC6piece : Piece :=
  { case := Case.Red, x := 3, y := 0, last_move := 0,
    cases := [[Case.Red, Case.Red, Case.Empty], [Case.Empty, Case.Red, Case.Red]],
    index_rotation := 0 }

/-- Example session state (3-entry queue, no active piece) for the claim
C6 witness. -/
def exC6state : MainState :=
  { grid := fun _ _ => Case.Empty, current_piece := none,
    current_piece_ghost_offset_y := 0,
    next_pieces := [exC6piece, exC6piece, exC6piece], move_speed := 7,
    timer_piece_generation := 0, score := 0, level := 1, line_removed := 0,
    rng_index := 0 }

theorem queue_always_three_witness :
    (∃ s₁, reset (fun _ => 1) (fun _ => 7) exC6state = some s₁ ∧
      s₁.next_pieces.length = NEXT_PIECES_COUNT ∧
      s₁.rng_index = exC6state.rng_index + 3) ∧
    (∃ s₃, update (fun _ => 1) (fun _ => 7) 9 exC6state = some s₃ ∧
      s₃.next_pieces.length = NEXT_PIECES_COUNT) := by
  constructor
  · rcases hres : reset (fun _ => 1) (fun _ => 7) exC6state with _ | s₁
    · exact absurd hres (by decide)
    · obtain ⟨h1, h2⟩ := (queue_always_three (fun _ => 1) (fun _ => 7) 0 exC6state).1 s₁ hres
      exact ⟨s₁, rfl, h1, h2⟩
  · rcases hup : update (fun _ => 1) (fun _ => 7) 9 exC6state with _ | s₃
    · exact absurd hup (by decide)
    · exact ⟨s₃, rfl,
        (queue_always_three (fun _ => 1) (fun _ => 7) 9 exC6state).2.2 s₃ (by decide) hup⟩

/-- Claim C7: a hard drop changes only the active piece's `y`; the grid,
score, level, queue and the presence of the active piece are unchanged
(the drop never locks the piece).  The final `y` is the lowest position
reachable by collision-free downward unit steps: every intermediate step
from the starting `y` is collision-free and one more step from the final
`y` collides. -/
theorem piece_drop_only_moves_y (s : MainState) (p : Piece) (s' : MainState)
    (hp : s.current_piece = some p) (hd : piece_drop s = some s') :
    ∃ p', s' = { s with current_piece := some p' } ∧
      p'.case = p.case ∧ p'.cases = p.cases ∧ p'.x = p.x ∧
      p'.index_rotation = p.index_rotation ∧ p'.last_move = p.last_move ∧
      p.y ≤ p'.y ∧
      (∀ k : Int, p.y ≤ k → k < p'.y →
        check_collision s.grid { p with y := k } 0 1 = some false) ∧
      check_collision s.grid { p with y := p'.y } 0 1 = some true := by
  unfold piece_drop at hd
  rw [hp] at hd
  have hd2 : (match drop_go s.grid (21 - p.y).toNat p with
      | none => none
      | some p' => some ({ s with current_piece := some p' })) = some s' := hd
  split at hd2
  · exact absurd hd2 (by simp)
  · next p2 heq =>
    obtain ⟨h1, h2, h3, h4, h5, h6, h7, h8⟩ := drop_go_spec s.grid _ p p2 heq
    exact ⟨p2, (Option.some.inj hd2).symm, h1, h2, h3, h4, h5, h6, h7, h8⟩

/-- Example active piece for the claim C7 witness. -/
def exC7piece : Piece :=
  { case := Case.Red, x := 4, y := 0, last_move := 0,
    cases := [[Case.Red, Case.Red, Case.Empty], [Case.Empty, Case.Red, Case.Red]],
    index_rotation := 0 }

/-- Example session state for the claim C7 witness. -/
def exC7state : MainState :=
  { grid := fun _ _ => Case.Empty, current_piece := some exC7piece,
    current_piece_ghost_offset_y := 0, next_pieces := [], move_speed := 5,
    timer_piece_generation := 0, score := 0, level := 1, line_removed := 0,
    rng_index := 0 }

theorem piece_drop_only_moves_y_witness :
    ∃ p', ({ exC7state with current_piece := some { exC7piece with y := 18 } } : MainState) =
        { exC7state with current_piece := some p' } ∧
      p'.case = exC7piece.case ∧ p'.cases = exC7piece.cases ∧ p'.x = exC7piece.x ∧
      p'.index_rotation = exC7piece.index_rotation ∧ p'.last_move = exC7piece.last_move ∧
      exC7piece.y ≤ p'.y ∧
      (∀ k : Int, exC7piece.y ≤ k → k < p'.y →
        check_collision exC7state.grid { exC7piece with y := k } 0 1 = some false) ∧
      check_collision exC7state.grid { exC7piece with y := p'.y } 0 1 = some true :=
  piece_drop_only_moves_y exC7state exC7piece
    ({ exC7state with current_piece := some { exC7piece with y := 18 } }) rfl (by decide)

/-- Claim C8: applying the shape rotation (transpose, then reverse each
row) four times to any catalog shape returns the original shape, and for
the square kind (`DarkYellow`) a single rotation is already the identity
(the bind over `piece_cases` covers all seven kinds; for `Case.Empty`
both sides are the `none` of the catalog panic). -/
theorem rotate_cases_cycle :
    (∀ c : Case,
      ((((piece_cases c).bind rotate_cases).bind rotate_cases).bind
          rotate_cases).bind rotate_cases = piece_cases c) ∧
    ((piece_cases Case.DarkYellow).bind rotate_cases = piece_cases Case.DarkYellow) := by
  decide

/-- Claim C9: for every rotation index in `0..3` the kick-offset lookup
returns `(0, 0)` for the square kind (`DarkYellow`), the long-bar table
`(2,-1), (-2,2), (1,-2), (-1,1)` for the long-bar kind (`Cyan`), and the
shared default table `(1,0), (-1,1), (0,-1), (0,0)` for each of the other
five kinds. -/
theorem kick_offset_tables :
    ∀ i : Fin 4,
      cases_rotation_offset Case.DarkYellow (i : Nat) = some ⟨0, 0⟩ ∧
      cases_rotation_offset Case.Cyan (i : Nat) = some (spec_kick_cyan i) ∧
      (∀ c : Case, c ≠ Case.Empty → c ≠ Case.DarkYellow → c ≠ Case.Cyan →
        cases_rotation_offset c (i : Nat) = some (spec_kick_default i)) := by
  decide

theorem kick_offset_tables_witness :
    cases_rotation_offset Case.DarkYellow ((2 : Fin 4) : Nat) = some ⟨0, 0⟩ ∧
    cases_rotation_offset Case.Cyan ((2 : Fin 4) : Nat) = some (spec_kick_cyan 2) ∧
    cases_rotation_offset Case.Red ((2 : Fin 4) : Nat) = some (spec_kick_default 2) :=
  ⟨(kick_offset_tables 2).1, (kick_offset_tables 2).2.1,
   (kick_offset_tables 2).2.2 Case.Red (by decide) (by decide) (by decide)⟩

/-- Claim C10: on every grid whose top row (row 0) is completely
non-empty, `remove_complete_lines` runs to completion without a fault
(returns `some`, so no out-of-bounds grid access occurs anywhere in the
scan or the shifts — the shift start index `(0 - 1) as i32` wraps to `-1`
and the shift body is skipped) and the returned count includes that full
top row (it is at least 1). -/
theorem remove_complete_lines_full_top_row_safe (g : Grid)
    (hfull : ∀ x : Fin 10, g x 0 ≠ Case.Empty) :
    ∃ g' c, remove_complete_lines g = some (g', c) ∧ 1 ≤ c := by
  unfold remove_complete_lines
  have hr : List.range 20 =
      0 :: [1, 2, 3, 4, 5, 6, 7, 8, 9, 10, 11, 12, 13, 14, 15, 16, 17, 18, 19] := by decide
  rw [show List.range GRID_HEIGHT = List.range 20 from rfl, hr]
  have hfull2 : ∀ x : Fin 10, g x ⟨0, by decide⟩ ≠ Case.Empty := by
    intro x
    simpa using hfull x
  have hrow : row_full g 0 = some true :=
    row_full_go_true g 0 (by omega) hfull2 (List.range 10)
      (fun z hz => List.mem_range.mp hz)
  rw [remove_lines_go, hrow]
  have hcast : cast_i32 (usize_wrap_sub 0 1) = -1 := by decide
  rw [hcast]
  have hsh : shift_rows g (-1) = some g := rfl
  rw [hsh]
  obtain ⟨g', c', h, hc⟩ := remove_lines_go_some
    [1, 2, 3, 4, 5, 6, 7, 8, 9, 10, 11, 12, 13, 14, 15, 16, 17, 18, 19] g 1 (by decide)
  exact ⟨g', c', by
    show Option.elim (some true) none _ = _
    simpa using h, by omega⟩

theorem remove_complete_lines_full_top_row_safe_witness :
    ∃ g' c, remove_complete_lines full_top_grid = some (g', c) ∧ 1 ≤ c :=
  remove_complete_lines_full_top_row_safe full_top_grid (by decide)
